import Mathlib

/-!
Verification of the query-builder, streaming-iteration and REST response
handling of the parse client library (`query.go`, `rest.go`), via a shallow
embedding: Go `interface{}` JSON-ish values become the inductive `Val`,
Go maps become association lists with deterministic update, and the
builder methods / response handlers become Lean functions mirroring the
Go control flow.
-/

namespace Parse

/-- A wire/builder value: the fragment of Go `interface{}` that flows
through the query builder and response handler.  `vtime` models a Go
`time.Time` (as an opaque timestamp), `vdate` the library's `Date` wrapper
produced from it; `vmap` models `map[string]interface{}` and `varr` a
slice. -/
inductive Val where
  | vnull : Val
  | vbool (b : Bool) : Val
  | vint (n : Int) : Val
  | vstr (s : String) : Val
  | vtime (t : Nat) : Val
  | vdate (t : Nat) : Val
  | varr (l : List Val) : Val
  | vmap (m : List (String × Val)) : Val

/-- Lookup in an association-list map (models Go `cv, ok := m[f]`). -/
def lookupKey (m : List (String × Val)) (k : String) : Option Val :=
  match m with
  | [] => none
  | (k1, v1) :: rest => if k1 = k then some v1 else lookupKey rest k

/-- Update in an association-list map (models Go `m[f] = v`): replaces the
existing binding in place, else appends. -/
def setKey (m : List (String × Val)) (k : String) (v : Val) : List (String × Val) :=
  match m with
  | [] => [(k, v)]
  | (k1, v1) :: rest => if k1 = k then (k, v) :: rest else (k1, v1) :: setKey rest k v

mutual
/-- Embeds `encodeForRequest` (util.go): `time.Time` becomes a `Date`,
slices encode element-wise, maps and scalars pass through unchanged. -/
def encodeForRequest : Val → Val
  | Val.vtime t => Val.vdate t
  | Val.varr l => Val.varr (encodeForRequestList l)
  | v => v

def encodeForRequestList : List Val → List Val
  | [] => []
  | v :: vs => encodeForRequest v :: encodeForRequestList vs
end

/-- The inline conversion shared by `GreaterThan` / `LessThanOrEqual` etc.
(query.go): a `time.Time` (or pointer to one) becomes `Date(t)`, everything
else is used as-is. -/
def compareEncode : Val → Val
  | Val.vtime t => Val.vdate t
  | v => v

/-- `opTypeT` (query.go). -/
inductive OpType where
  | otInval : OpType
  | otGet : OpType
  | otQuery : OpType
deriving DecidableEq

/-- The builder state of `queryT` (query.go) restricted to the fields the
claims exercise. -/
structure QueryState where
  op : OpType
  orderBy : List String
  limit : Option Int
  skip : Option Int
  batchSize : Int
  whereDoc : List (String × Val)

/-- `NewQuery` (query.go): empty where map, empty sort, zero-valued
`batchSize`, nil limit and skip. -/
def NewQuery : QueryState :=
  { op := OpType.otInval, orderBy := [], limit := none, skip := none
    batchSize := 0, whereDoc := [] }

/-- `queryT.EqualTo`: `q.where[f] = encodeForRequest(v)` — a full
overwrite of the entry. -/
def EqualTo (q : QueryState) (f : String) (v : Val) : QueryState :=
  { q with whereDoc := setKey q.whereDoc f (encodeForRequest v) }

/-- `queryT.GreaterThan`: if the existing entry for `f` is an operator
sub-document, set its `$gt` key; otherwise overwrite the entry with a
fresh `{"$gt": qv}` sub-document. -/
def GreaterThan (q : QueryState) (f : String) (v : Val) : QueryState :=
  let qv := compareEncode v
  match lookupKey q.whereDoc f with
  | some (Val.vmap m) =>
      { q with whereDoc := setKey q.whereDoc f (Val.vmap (setKey m "$gt" qv)) }
  | _ =>
      { q with whereDoc := setKey q.whereDoc f (Val.vmap [("$gt", qv)]) }

/-- `queryT.LessThanOrEqual`: same merge rule with key `$lte`. -/
def LessThanOrEqual (q : QueryState) (f : String) (v : Val) : QueryState :=
  let qv := compareEncode v
  match lookupKey q.whereDoc f with
  | some (Val.vmap m) =>
      { q with whereDoc := setKey q.whereDoc f (Val.vmap (setKey m "$lte" qv)) }
  | _ =>
      { q with whereDoc := setKey q.whereDoc f (Val.vmap [("$lte", qv)]) }

/-- Character-level engine of Go `strings.Replace(s, old, new, -1)` for a
non-empty `old`: scan left to right, replacing non-overlapping occurrences.
The fuel is the length of `s`; each step consumes at least one character. -/
def replaceLoop : Nat → List Char → List Char → List Char → List Char
  | 0, _, _, _ => []
  | _ + 1, [], _, _ => []
  | fuel + 1, c :: rest, old, new =>
      if old ≠ [] ∧ old.isPrefixOf (c :: rest) then
        new ++ replaceLoop fuel ((c :: rest).drop old.length) old new
      else
        c :: replaceLoop fuel rest old new

/-- Go `strings.Replace(s, old, new, -1)` (for non-empty `old`). -/
def goReplaceAll (s old new : String) : String :=
  String.mk (replaceLoop s.data.length s.data old.data new.data)

/-- `quote` (query.go): wrap in literal-match escapes and split any
embedded `\E`. -/
def quote (re : String) : String :=
  "\\Q" ++ goReplaceAll re "\\E" "\\E\\\\E\\Q" ++ "\\E"

/-- `queryT.StartsWith`: anchor the quoted string and store it under
`$regex`, with the usual merge rule. -/
def StartsWith (q : QueryState) (f : String) (v : String) : QueryState :=
  let v1 := "^" ++ quote v
  match lookupKey q.whereDoc f with
  | some (Val.vmap m) =>
      { q with whereDoc := setKey q.whereDoc f (Val.vmap (setKey m "$regex" (Val.vstr v1))) }
  | _ =>
      { q with whereDoc := setKey q.whereDoc f (Val.vmap [("$regex", Val.vstr v1)]) }

/-- `queryT.SetBatchSize`: a size of at most 1000 is stored as given,
anything larger resets to 100.  The argument is a Go `uint`. -/
def SetBatchSize (q : QueryState) (size : Nat) : QueryState :=
  if size ≤ 1000 then { q with batchSize := (size : Int) }
  else { q with batchSize := 100 }

/-! ## rest.go: error envelope, doRequest tail, handleResponse -/

/-- `parseErrorT` (rest.go): the decoded backend error envelope. -/
structure ParseErrorT where
  ErrorCode : Int
  ErrorMessage : String
deriving DecidableEq

/-- `parseErrorT.Code`. -/
def ParseErrorT.Code (e : ParseErrorT) : Int := e.ErrorCode

/-- `parseErrorT.Message`. -/
def ParseErrorT.Message (e : ParseErrorT) : String := e.ErrorMessage

/-- The error values the modelled fragment can return: `ErrNoRows`
(query.go), a backend `parseErrorT`, the non-pointer destination error of
`handleResponse`, and a JSON decode failure. -/
inductive PError where
  | errNoRows : PError
  | remote (e : ParseErrorT) : PError
  | invalidDest : PError
  | decodeFail : PError
deriving DecidableEq

/-- `json.Unmarshal(respBody, &parseErrorT{})` on an already-parsed JSON
object: absent fields keep their zero values, fields of the wrong JSON
type fail the unmarshal. -/
def unmarshalParseError (data : List (String × Val)) : Option ParseErrorT :=
  let code := match lookupKey data "code" with
    | none => some (0 : Int)
    | some (Val.vint n) => some n
    | some _ => none
  let msg := match lookupKey data "error" with
    | none => some ""
    | some (Val.vstr s) => some s
    | some _ => none
  match code, msg with
  | some c, some m => some { ErrorCode := c, ErrorMessage := m }
  | _, _ => none

/-- The tail of `clientT.doRequest` (rest.go): with the HTTP status and the
response body (already parsed to a JSON value, `none` when the body is not
valid JSON), a 2xx status returns the body, any other status decodes the
error envelope and returns it as the error with no body. -/
def doRequestFinish (status : Nat) (body : Option Val) : Except PError (Option Val) :=
  if 200 ≤ status ∧ status < 300 then Except.ok body
  else
    match body with
    | some (Val.vmap data) =>
        match unmarshalParseError data with
        | some e => Except.error (PError.remote e)
        | none => Except.error PError.decodeFail
    | _ => Except.error PError.decodeFail

/-- `handleResponse` (rest.go) on a destination that is a valid non-nil
pointer, with the body already parsed: a `count` key populates from it; a
`results` key bound to an empty array returns `ErrNoRows`; a non-empty or
non-array `results` populates from it; otherwise the whole object is the
population source.  `Except.ok v` means `populateValue(dst, v)` is
invoked. -/
def handleResponse (data : List (String × Val)) : Except PError Val :=
  match lookupKey data "count" with
  | some c => Except.ok c
  | none =>
      match lookupKey data "results" with
      | some (Val.varr l) =>
          if l.isEmpty then Except.error PError.errNoRows else Except.ok (Val.varr l)
      | some r => Except.ok r
      | none => Except.ok (Val.vmap data)

/-! ## rest.go: request authentication headers -/

/-- The client key configuration (`clientT`, rest.go). -/
structure ClientConf where
  appId : String
  restKey : String
  masterKey : String

/-- The per-operation authentication inputs (`op.useMasterKey()` and
`op.session()` in `doRequest`); the session is its token when bound. -/
structure OpAuth where
  useMasterKey : Bool
  session : Option String

/-- The key-related headers attached to a request; `none` means the header
is absent. -/
structure AuthHeaders where
  appIdHeader : Option String
  masterKeyHeader : Option String
  restKeyHeader : Option String
  sessionTokenHeader : Option String
deriving DecidableEq

/-- The header-selection block of `clientT.doRequest` (rest.go): the master
key is attached iff the operation asked for it, the client has a non-empty
master key, and no session is bound; otherwise the REST key is attached and
the session token iff a session is bound. -/
def buildAuthHeaders (c : ClientConf) (op : OpAuth) : AuthHeaders :=
  if op.useMasterKey ∧ c.masterKey ≠ "" ∧ op.session = none then
    { appIdHeader := some c.appId, masterKeyHeader := some c.masterKey
      restKeyHeader := none, sessionTokenHeader := none }
  else
    { appIdHeader := some c.appId, masterKeyHeader := none
      restKeyHeader := some c.restKey, sessionTokenHeader := op.session }

/-! ## query.go: Each — streaming iteration -/

/-- A decoded result element as the iteration loop sees it: the loop only
reads its `Id` field (`last.FieldByName("Id")`). -/
structure Record where
  Id : String
deriving DecidableEq

/-- The configuration phase of `queryT.Each` (query.go), after the channel
type checks: default the op, fail fast when a sort, limit, or skip is
already set (returning the builder untouched), else force ascending
`objectId` order and set the limit from the batch size (100 by default).
The first component is the configuration error, `none` on success. -/
def eachSetup (q : QueryState) : Option String × QueryState :=
  let q1 := if q.op = OpType.otInval then { q with op := OpType.otQuery } else q
  if q1.limit ≠ none ∨ q1.skip ≠ none ∨ q1.orderBy ≠ [] then
    (some "cannot iterate over a query with a sort, limit, or skip", q1)
  else
    let q2 := { q1 with orderBy := ["objectId"] }
    let q3 :=
      if q2.batchSize > 0 then { q2 with limit := some q2.batchSize }
      else { q2 with limit := some 100 }
    (none, q3)

/-- What one streaming iteration produced: how many requests were issued,
the elements delivered to the consumer channel in order, and the terminal
error sent on the completion channel (`none` on graceful exhaustion). -/
structure IterResult where
  requests : Nat
  delivered : List Record
  termErr : Option PError
deriving DecidableEq

/-- The body of the iteration goroutine of `queryT.Each` (query.go),
without cancellation: each round issues the current query (`server`),
delivers the decoded batch, stops after a short batch (terminal error
`none`), and otherwise adds `GreaterThan("objectId", lastId)` and loops.
A request or decode error stops the loop with that terminal error.  The
fuel bounds the number of rounds; `none` means it was exhausted. -/
def eachLoop (server : QueryState → Except PError (List Record)) :
    Nat → QueryState → Option IterResult
  | 0, _ => none
  | fuel + 1, q =>
    match q.limit with
    | none => none
    | some lim =>
      match server q with
      | Except.error e => some { requests := 1, delivered := [], termErr := some e }
      | Except.ok batch =>
        if (batch.length : Int) < lim then
          some { requests := 1, delivered := batch, termErr := none }
        else
          let q2 :=
            match batch.getLast? with
            | some last => GreaterThan q "objectId" (Val.vstr last.Id)
            | none => q
          match eachLoop server fuel q2 with
          | some r =>
              some { requests := r.requests + 1, delivered := batch ++ r.delivered
                     termErr := r.termErr }
          | none => none

/-! ## A concrete backend for the streaming scenario: 150 records,
ascending identifiers, at most `limit` per page, honouring the
`objectId > cursor` filter the loop installs. -/

/-- A fixed-width, lexicographically sortable identifier for record `n`
(4 decimal digits). -/
def idOf (n : Nat) : String :=
  String.mk [Char.ofNat (48 + n / 1000 % 10), Char.ofNat (48 + n / 100 % 10),
             Char.ofNat (48 + n / 10 % 10), Char.ofNat (48 + n % 10)]

/-- The 150 logical records of the streaming scenario, in ascending
identifier order. -/
def records150 : List Record :=
  (List.range 150).map (fun i => { Id := idOf (i + 1) })

/-- Lexicographic strict order on character lists (by code point), the
identifier order the scenario server sorts by. -/
def charListLt : List Char → List Char → Bool
  | [], [] => false
  | [], _ :: _ => true
  | _ :: _, [] => false
  | c :: cs, d :: ds =>
      if c.toNat < d.toNat then true
      else if d.toNat < c.toNat then false
      else charListLt cs ds

/-- Lexicographic strict order on identifiers. -/
def idLt (a b : String) : Bool := charListLt a.data b.data

/-- Whether a record passes the query's `objectId` lower-bound filter
(the `{"$gt": cursor}` constraint the iteration loop installs); with no
constraint every record passes. -/
def cursorPred (q : QueryState) (r : Record) : Bool :=
  match lookupKey q.whereDoc "objectId" with
  | some (Val.vmap m) =>
      match lookupKey m "$gt" with
      | some (Val.vstr c) => idLt c r.Id
      | _ => true
  | _ => true

/-- The scenario server: answers each request with the filtered records,
ascending, truncated to the query's limit. -/
def server150 (q : QueryState) : Except PError (List Record) :=
  match q.limit with
  | some lim => Except.ok ((records150.filter (cursorPred q)).take lim.toNat)
  | none => Except.ok []

/-! ## Helper lemmas -/

theorem lookupKey_setKey_self (m : List (String × Val)) (k : String) (v : Val) :
    lookupKey (setKey m k v) k = some v := by
  induction m with
  | nil => simp [setKey, lookupKey]
  | cons hd tl ih =>
      obtain ⟨k1, v1⟩ := hd
      by_cases h : k1 = k
      · simp [setKey, lookupKey, h]
      · simp [setKey, lookupKey, h, ih]

/-- `GreaterThan` always leaves the field bound to an operator
sub-document whose `$gt` key is the (encoded) given value. -/
theorem greaterThan_gt_binding (q : QueryState) (f : String) (v : Val) :
    ∃ m, lookupKey ((GreaterThan q f v).whereDoc) f = some (Val.vmap m) ∧
      lookupKey m "$gt" = some (compareEncode v) := by
  unfold GreaterThan
  cases hq : lookupKey q.whereDoc f with
  | none =>
      exact ⟨[("$gt", compareEncode v)], by simp [lookupKey_setKey_self], by simp [lookupKey]⟩
  | some w =>
      cases w with
      | vmap m =>
          exact ⟨setKey m "$gt" (compareEncode v), by simp [lookupKey_setKey_self],
            lookupKey_setKey_self m "$gt" (compareEncode v)⟩
      | vnull => exact ⟨[("$gt", compareEncode v)], by simp [lookupKey_setKey_self], by simp [lookupKey]⟩
      | vbool b => exact ⟨[("$gt", compareEncode v)], by simp [lookupKey_setKey_self], by simp [lookupKey]⟩
      | vint n => exact ⟨[("$gt", compareEncode v)], by simp [lookupKey_setKey_self], by simp [lookupKey]⟩
      | vstr s => exact ⟨[("$gt", compareEncode v)], by simp [lookupKey_setKey_self], by simp [lookupKey]⟩
      | vtime t => exact ⟨[("$gt", compareEncode v)], by simp [lookupKey_setKey_self], by simp [lookupKey]⟩
      | vdate t => exact ⟨[("$gt", compareEncode v)], by simp [lookupKey_setKey_self], by simp [lookupKey]⟩
      | varr l => exact ⟨[("$gt", compareEncode v)], by simp [lookupKey_setKey_self], by simp [lookupKey]⟩

/-- Whether a value is a `map[string]interface{}` — the type assertion
`cv.(map[string]interface{})` of the comparison builders. -/
def isMapVal : Val → Bool
  | Val.vmap _ => true
  | _ => false

/-! ## Claim theorems -/

/-- C1: on a builder with no constraint on `x`, `GreaterThan(x,a)` followed
by `LessThanOrEqual(x,b)` leaves `x` bound to the single operator
sub-document `{"$gt": a, "$lte": b}`: the second comparison merges into the
existing sub-document instead of overwriting it.  (The hypotheses
`compareEncode a = a` / `compareEncode b = b` say the values are not Go
`time.Time` values, which would be stored as their `Date` encodings.) -/
theorem gt_then_lte_merges (q : QueryState) (x : String) (a b : Val)
    (hfresh : lookupKey q.whereDoc x = none)
    (ha : compareEncode a = a) (hb : compareEncode b = b) :
    lookupKey ((LessThanOrEqual (GreaterThan q x a) x b).whereDoc) x
      = some (Val.vmap [("$gt", a), ("$lte", b)]) := by
  have h1 : lookupKey (GreaterThan q x a).whereDoc x
      = some (Val.vmap [("$gt", a)]) := by
    simp only [GreaterThan, hfresh, ha]
    exact lookupKey_setKey_self q.whereDoc x (Val.vmap [("$gt", a)])
  simp only [LessThanOrEqual, h1, hb]
  rw [lookupKey_setKey_self]
  simp [setKey]

/-- Witness for C1 at the spec's own example `{"x":{"$gt":5,"$lte":10}}`. -/
theorem gt_then_lte_merges_witness :
    lookupKey ((LessThanOrEqual (GreaterThan NewQuery "x" (Val.vint 5)) "x"
        (Val.vint 10)).whereDoc) "x"
      = some (Val.vmap [("$gt", Val.vint 5), ("$lte", Val.vint 10)]) :=
  gt_then_lte_merges NewQuery "x" (Val.vint 5) (Val.vint 10) rfl rfl rfl

/-- C5 counterexample: when the equality value is itself a JSON object,
the later `GreaterThan` does NOT replace it — it merges the `$gt` key into
it, so the claim's universally quantified statement fails at
`a = {"k": 1}`, `b = 2`. -/
theorem equalTo_then_gt_counterexample :
    lookupKey ((GreaterThan (EqualTo NewQuery "x" (Val.vmap [("k", Val.vint 1)])) "x"
        (Val.vint 2)).whereDoc) "x"
      = some (Val.vmap [("k", Val.vint 1), ("$gt", Val.vint 2)]) ∧
    Val.vmap [("k", Val.vint 1), ("$gt", Val.vint 2)] ≠ Val.vmap [("$gt", Val.vint 2)] := by
  refine ⟨rfl, ?_⟩
  intro h
  simp at h

/-- C5 amended: `EqualTo(x,a)` stores its (encoded) value as a full
overwrite, and when that stored value is not itself a JSON object, a later
`GreaterThan(x,b)` fully replaces it with `{"$gt": b}`. -/
theorem equalTo_then_gt_overwrites (q : QueryState) (x : String) (a b : Val)
    (ha : isMapVal (encodeForRequest a) = false)
    (hb : compareEncode b = b) :
    lookupKey ((GreaterThan (EqualTo q x a) x b).whereDoc) x
      = some (Val.vmap [("$gt", b)]) := by
  have h1 : lookupKey (EqualTo q x a).whereDoc x = some (encodeForRequest a) := by
    simp only [EqualTo]
    exact lookupKey_setKey_self q.whereDoc x (encodeForRequest a)
  cases hea : encodeForRequest a
  case vmap m => rw [hea] at ha; simp [isMapVal] at ha
  all_goals
    rw [hea] at h1
    simp only [GreaterThan, h1, hb]
    exact lookupKey_setKey_self (EqualTo q x a).whereDoc x (Val.vmap [("$gt", b)])

/-- Witness for the C5 amended theorem at the spec's example:
`EqualTo("x",5)` then `GreaterThan("x",1)` gives `{"x":{"$gt":1}}`. -/
theorem equalTo_then_gt_overwrites_witness :
    lookupKey ((GreaterThan (EqualTo NewQuery "x" (Val.vint 5)) "x"
        (Val.vint 1)).whereDoc) "x"
      = some (Val.vmap [("$gt", Val.vint 1)]) :=
  equalTo_then_gt_overwrites NewQuery "x" (Val.vint 5) (Val.vint 1) rfl rfl

/-- C6: on a fresh field, `StartsWith(f,v)` binds `f` to
`{"$regex": "^" ++ quote v}`, where `quote` wraps the input in `\Q...\E`
and splits any embedded `\E`. -/
theorem startsWith_regex (q : QueryState) (f v : String)
    (hfresh : lookupKey q.whereDoc f = none) :
    lookupKey ((StartsWith q f v).whereDoc) f
      = some (Val.vmap [("$regex", Val.vstr ("^" ++ quote v))]) := by
  simp only [StartsWith, hfresh]
  exact lookupKey_setKey_self q.whereDoc f
    (Val.vmap [("$regex", Val.vstr ("^" ++ quote v))])

/-- Witness for C6 at the spec's example: `StartsWith("name","Al")` yields
the regex string `^\QAl\E`. -/
theorem startsWith_regex_witness :
    lookupKey ((StartsWith NewQuery "name" "Al").whereDoc) "name"
      = some (Val.vmap [("$regex", Val.vstr "^\\QAl\\E")]) :=
  startsWith_regex NewQuery "name" "Al" rfl

/-- C3: a response whose envelope carries `results` bound to an empty
array (and, per the envelope contract, no `count` key) makes
`handleResponse` return `ErrNoRows`: a non-`ok` outcome (so the
destination is never populated) distinct from every backend
`RemoteError`. -/
theorem handleResponse_empty_results (data : List (String × Val))
    (hc : lookupKey data "count" = none)
    (hr : lookupKey data "results" = some (Val.varr [])) :
    handleResponse data = Except.error PError.errNoRows ∧
    (∀ v : Val, (Except.error PError.errNoRows : Except PError Val) ≠ Except.ok v) ∧
    (∀ e : ParseErrorT, PError.errNoRows ≠ PError.remote e) := by
  refine ⟨?_, fun v h => Except.noConfusion h, fun e h => PError.noConfusion h⟩
  simp [handleResponse, hc, hr]

/-- Witness for C3 at the body `{"results": []}`. -/
theorem handleResponse_empty_results_witness :
    handleResponse [("results", Val.varr [])] = Except.error PError.errNoRows :=
  (handleResponse_empty_results [("results", Val.varr [])] rfl rfl).1

/-- C4: a non-2xx response whose body is the backend error envelope
`{"code": n, "error": msg}` makes `doRequest` return no body and the
`parseErrorT` error whose `Code()` is `n` and `Message()` is `msg`,
verbatim. -/
theorem doRequest_non2xx_remote (status : Nat) (data : List (String × Val))
    (n : Int) (msg : String)
    (hst : ¬(200 ≤ status ∧ status < 300))
    (hcode : lookupKey data "code" = some (Val.vint n))
    (hmsg : lookupKey data "error" = some (Val.vstr msg)) :
    doRequestFinish status (some (Val.vmap data))
      = Except.error (PError.remote { ErrorCode := n, ErrorMessage := msg }) ∧
    ParseErrorT.Code { ErrorCode := n, ErrorMessage := msg } = n ∧
    ParseErrorT.Message { ErrorCode := n, ErrorMessage := msg } = msg := by
  refine ⟨?_, rfl, rfl⟩
  simp [doRequestFinish, hst, unmarshalParseError, hcode, hmsg]

/-- Witness for C4 at a 404 carrying `{"code": 101, "error": "object not
found"}`. -/
theorem doRequest_non2xx_remote_witness :
    doRequestFinish 404 (some (Val.vmap [("code", Val.vint 101), ("error", Val.vstr "object not found")]))
      = Except.error (PError.remote { ErrorCode := 101, ErrorMessage := "object not found" }) :=
  (doRequest_non2xx_remote 404 [("code", Val.vint 101), ("error", Val.vstr "object not found")]
    101 "object not found" (by decide) rfl rfl).1

/-- C7: on a query with an explicit limit, skip, or sort order already
set, `Each` fails fast with the configuration error, before any request,
and the filter document is left unchanged. -/
theorem each_fails_fast (q : QueryState)
    (h : q.limit ≠ none ∨ q.skip ≠ none ∨ q.orderBy ≠ []) :
    (eachSetup q).1 = some "cannot iterate over a query with a sort, limit, or skip" ∧
    ((eachSetup q).2).whereDoc = q.whereDoc := by
  refine ⟨?_, ?_⟩ <;>
    by_cases hop : q.op = OpType.otInval <;> simp [eachSetup, hop, h]

/-- Witness for C7 on a query with an explicit limit. -/
theorem each_fails_fast_witness :
    (eachSetup { NewQuery with limit := some 5 }).1
      = some "cannot iterate over a query with a sort, limit, or skip" :=
  (each_fails_fast { NewQuery with limit := some 5 } (Or.inl (by simp [NewQuery]))).1

/-- C8: on a query with no explicit limit/skip/sort, `Each` succeeds in
its configuration phase, force-applies the ascending `objectId` sort, uses
a per-request limit of 100 when the batch size is unset, and uses the
batch size as the limit when `SetBatchSize` was called with a positive
size of at most 1000. -/
theorem each_forces_sort_and_limit (q : QueryState) (size : Nat)
    (hl : q.limit = none) (hs : q.skip = none) (ho : q.orderBy = []) :
    ((eachSetup q).1 = none ∧ ((eachSetup q).2).orderBy = ["objectId"]) ∧
    (q.batchSize ≤ 0 → ((eachSetup q).2).limit = some 100) ∧
    (0 < size → size ≤ 1000 →
      ((eachSetup (SetBatchSize q size)).2).limit = some (size : Int)) := by
  refine ⟨⟨?_, ?_⟩, fun hbs => ?_, fun hpos hle => ?_⟩
  · by_cases hop : q.op = OpType.otInval <;>
      by_cases hb : (0 : Int) < q.batchSize <;> simp [eachSetup, hop, hb, hl, hs, ho]
  · by_cases hop : q.op = OpType.otInval <;>
      by_cases hb : (0 : Int) < q.batchSize <;> simp [eachSetup, hop, hb, hl, hs, ho]
  · by_cases hop : q.op = OpType.otInval <;>
      simp [eachSetup, hop, hl, hs, ho, not_lt.mpr hbs]
  · by_cases hop : q.op = OpType.otInval <;>
      simp [eachSetup, SetBatchSize, hop, hle, hl, hs, ho, Int.natCast_pos.mpr hpos]

/-- Witness for C8 on a fresh query with batch size 500. -/
theorem each_forces_sort_and_limit_witness :
    ((eachSetup NewQuery).1 = none ∧ ((eachSetup NewQuery).2).orderBy = ["objectId"]) ∧
    ((eachSetup NewQuery).2).limit = some 100 ∧
    ((eachSetup (SetBatchSize NewQuery 500)).2).limit = some 500 :=
  ⟨(each_forces_sort_and_limit NewQuery 500 rfl rfl rfl).1,
   (each_forces_sort_and_limit NewQuery 500 rfl rfl rfl).2.1 (by decide),
   (each_forces_sort_and_limit NewQuery 500 rfl rfl rfl).2.2 (by decide) (by decide)⟩

/-- C9 counterexample: with a master-key use explicitly requested and no
session bound, but an empty master key configured on the client, the code
attaches the REST key header and not the master-key header — so choosing
the master key "exactly when explicitly requested and no session is bound"
fails on this input. -/
theorem auth_headers_counterexample :
    (buildAuthHeaders { appId := "app", restKey := "rk", masterKey := "" }
        { useMasterKey := true, session := none }).masterKeyHeader = none ∧
    (buildAuthHeaders { appId := "app", restKey := "rk", masterKey := "" }
        { useMasterKey := true, session := none }).restKeyHeader = some "rk" ∧
    ({ useMasterKey := true, session := none } : OpAuth).useMasterKey = true ∧
    ({ useMasterKey := true, session := none } : OpAuth).session = none := by
  refine ⟨?_, ?_, rfl, rfl⟩ <;> simp [buildAuthHeaders]

/-- C9 amended: the master-key header is attached exactly when master-key
use was requested, the client's configured master key is non-empty, and no
session is bound; otherwise the REST key header is attached, with the
session-token header exactly when a session is bound; and exactly one of
the master-key and REST key headers is present. -/
theorem auth_headers_spec (c : ClientConf) (op : OpAuth) :
    ((buildAuthHeaders c op).masterKeyHeader ≠ none ↔
       (op.useMasterKey = true ∧ c.masterKey ≠ "" ∧ op.session = none)) ∧
    ((buildAuthHeaders c op).restKeyHeader ≠ none ↔
       ¬(op.useMasterKey = true ∧ c.masterKey ≠ "" ∧ op.session = none)) ∧
    ((buildAuthHeaders c op).sessionTokenHeader ≠ none ↔
       ((buildAuthHeaders c op).restKeyHeader ≠ none ∧ op.session ≠ none)) ∧
    ((buildAuthHeaders c op).masterKeyHeader = none ↔
       (buildAuthHeaders c op).restKeyHeader ≠ none) := by
  by_cases h : op.useMasterKey = true ∧ c.masterKey ≠ "" ∧ op.session = none
  · obtain ⟨h1, h2, h3⟩ := h
    simp [buildAuthHeaders, h1, h2, h3]
  · simp [buildAuthHeaders, h]

/-- C10: `SetBatchSize` stores any size up to 1000 exactly as given, resets
to 100 for any size above 1000 (no clamping to 1000), and a stored size of
0 makes `Each` use the default per-request limit of 100. -/
theorem setBatchSize_spec (q : QueryState) (size : Nat) :
    (1000 < size → (SetBatchSize q size).batchSize = 100) ∧
    (size ≤ 1000 → (SetBatchSize q size).batchSize = (size : Int)) ∧
    (q.limit = none → q.skip = none → q.orderBy = [] →
      ((eachSetup (SetBatchSize q 0)).2).limit = some 100) := by
  refine ⟨fun hgt => ?_, fun hle => ?_, fun hl hs ho => ?_⟩
  · simp [SetBatchSize, Nat.not_le.mpr hgt]
  · simp [SetBatchSize, hle]
  · by_cases hop : q.op = OpType.otInval <;>
      simp [eachSetup, SetBatchSize, hop, hl, hs, ho]

/-- Witness for C10 at sizes 1001, 1000 and 0. -/
theorem setBatchSize_spec_witness :
    (SetBatchSize NewQuery 1001).batchSize = 100 ∧
    (SetBatchSize NewQuery 1000).batchSize = 1000 ∧
    ((eachSetup (SetBatchSize NewQuery 0)).2).limit = some 100 :=
  ⟨(setBatchSize_spec NewQuery 1001).1 (by decide),
   (setBatchSize_spec NewQuery 1000).2.1 (by decide),
   (setBatchSize_spec NewQuery 0).2.2 rfl rfl rfl⟩

/-- C2: the streaming loop of `Each`.  (i) A successfully decoded batch
shorter than the configured limit ends the iteration gracefully after that
single request, delivering the batch with a nil terminal error.  (ii) A
batch whose length equals the limit advances: the next query's `objectId`
entry is an operator sub-document whose `$gt` key is the last delivered
element's identifier, and the loop continues as one more request on that
advanced query.  (iii) In particular, over 150 records served at most 100
per page in ascending identifier order, exactly 2 requests are issued, all
150 elements are delivered in order, and the terminal error is nil. -/
theorem each_loop_advance_and_exhaustion :
    (∀ (server : QueryState → Except PError (List Record)) (q : QueryState)
       (lim : Int) (batch : List Record) (fuel : Nat),
       q.limit = some lim → server q = Except.ok batch →
       (batch.length : Int) < lim →
       eachLoop server (fuel + 1) q
         = some { requests := 1, delivered := batch, termErr := none }) ∧
    (∀ (server : QueryState → Except PError (List Record)) (q : QueryState)
       (lim : Int) (batch : List Record) (last : Record) (fuel : Nat),
       q.limit = some lim → server q = Except.ok batch →
       (batch.length : Int) = lim → batch.getLast? = some last →
       (∃ m, lookupKey ((GreaterThan q "objectId" (Val.vstr last.Id)).whereDoc) "objectId"
           = some (Val.vmap m) ∧ lookupKey m "$gt" = some (Val.vstr last.Id)) ∧
       eachLoop server (fuel + 1) q
         = Option.map (fun r => { requests := r.requests + 1,
                                  delivered := batch ++ r.delivered,
                                  termErr := r.termErr })
             (eachLoop server fuel (GreaterThan q "objectId" (Val.vstr last.Id)))) ∧
    eachLoop server150 3 (eachSetup NewQuery).2
      = some { requests := 2, delivered := records150, termErr := none } := by
  refine ⟨?_, ?_, rfl⟩
  · intro server q lim batch fuel hlim hsrv hlt
    simp [eachLoop, hlim, hsrv, hlt]
  · intro server q lim batch last fuel hlim hsrv hlen hlast
    have hnotlt : ¬((batch.length : Int) < lim) := by omega
    refine ⟨?_, ?_⟩
    · obtain ⟨m, hm1, hm2⟩ := greaterThan_gt_binding q "objectId" (Val.vstr last.Id)
      exact ⟨m, hm1, hm2⟩
    · simp only [eachLoop, hlim, hsrv, hlast, if_neg hnotlt]
      cases eachLoop server fuel (GreaterThan q "objectId" (Val.vstr last.Id)) <;> simp

/-- Witness for C2 on a server that is immediately exhausted: one request,
nothing delivered, nil terminal error. -/
theorem each_loop_advance_witness :
    eachLoop (fun _ => Except.ok []) 1 (eachSetup NewQuery).2
      = some { requests := 1, delivered := [], termErr := none } :=
  each_loop_advance_and_exhaustion.1 (fun _ => Except.ok [])
    (eachSetup NewQuery).2 100 [] 0 rfl rfl (by decide)

end Parse
